import Mathlib

/-!
Verification development for the crawler-web repository (Google Places
collector, two script variants).

The Python sources are shallowly embedded:

* `src/naver_blog_to_places.py` — the full collector (`normalize_address`,
  `make_grid`, `collect_textsearch`, `collect_nearby_grid`,
  `get_country_code_safe`, the `by_place` dedupe in `main`, `write_csv`,
  `write_geojson`, the seen-cache path).
* `src/naver_blog_to_places.py.py` — the fast 100-cap variant (`area_pass`,
  `text_search`, the `uniq` dedupe and the `cap` truncation in `main`).

HTTP traffic is modelled by scripts: a list of responses consumed one per
API call.  Python floats are modelled by `ℚ` (and by `ℝ` where the claim is
about real trigonometry); Python `int` by `ℤ`; Python `str` by `String`;
absent JSON fields by `Option`.
-/

namespace CrawlerWeb

/-! ## String helpers (Python `in`, `str.split`, `str.lower`) -/

/-- `chListHasPre hay needle` : `needle` is a prefix of `hay` (char lists). -/
def chListHasPre : List Char → List Char → Bool
  | _, [] => true
  | [], _ :: _ => false
  | a :: as, b :: bs => a == b && chListHasPre as bs

/-- `chListHasSub hay needle` : `needle` occurs contiguously inside `hay`. -/
def chListHasSub : List Char → List Char → Bool
  | [], needle => needle.isEmpty
  | h :: t, needle => chListHasPre (h :: t) needle || chListHasSub t needle

/-- Python's `needle in hay` on strings. -/
def strContains (hay needle : String) : Bool :=
  chListHasSub hay.data needle.data

/-- Lower-case a string (Python `str.lower`; identical on the ASCII/Hangul
data appearing in this program). -/
def strLower (s : String) : String :=
  ⟨s.data.map Char.toLower⟩

/-- Split a char list at every character satisfying `p` (keeping empty
chunks, as Python's `str.split(sep)` does). -/
def chSplit (p : Char → Bool) : List Char → List Char → List (List Char)
  | acc, [] => [acc.reverse]
  | acc, c :: cs => if p c then acc.reverse :: chSplit p [] cs else chSplit p (c :: acc) cs

/-- Python's `re.split(r"\s+", s.strip())` followed by dropping empty
tokens (the source filters `if t`). -/
def wsTokens (s : String) : List String :=
  ((chSplit (fun c => c.isWhitespace) [] s.data).map fun cs => String.mk cs).filter
    (fun t => t ≠ "")

/-- Python's `s.split(",")` with empty tokens removed
(`set(x.split(",")) - {""}` in the source). -/
def splitCommaNE (s : String) : List String :=
  ((chSplit (fun c => c == ',') [] s.data).map fun cs => String.mk cs).filter
    (fun t => t ≠ "")

/-! ## Area alias lexicon and the area-token filter

Source: `AREA_ALIAS` and `normalize_address` in `naver_blog_to_places.py`,
`area_pass` in the fast variant (identical logic plus a `mode` switch). -/

def AREA_ALIAS : List (String × String) :=
  [("도쿄", "tokyo"), ("시부야", "shibuya"), ("신주쿠", "shinjuku"),
   ("오사카", "osaka"), ("교토", "kyoto"), ("삿포로", "sapporo"),
   ("후쿠오카", "fukuoka"), ("세부", "cebu"), ("막탄", "mactan"),
   ("방콕", "bangkok")]

/-- Python `AREA_ALIAS.get(tok, "")`. -/
def aliasGet (tok : String) : String :=
  match AREA_ALIAS.find? (fun kv => kv.1 == tok) with
  | some kv => kv.2
  | none => ""

/-- `normalize_address(fmt, area)` from the full variant: empty area passes
everything; otherwise pass iff some whitespace token of `area` (lowered) is
a substring of the lowered address, or the token's `AREA_ALIAS` entry
(default `""`) is a substring. -/
def normalize_address (fmt area : String) : Bool :=
  if area = "" then true
  else
    let lowered := strLower fmt
    let toks := wsTokens area
    if toks.any (fun tok => strContains lowered (strLower tok)) then true
    else if toks.any (fun tok => strContains lowered (strLower (aliasGet tok))) then true
    else false

/-- `area_pass(fmt, area, mode)` from the fast variant: `mode == "none"`
disables the filter, otherwise identical to `normalize_address`. -/
def area_pass (fmt area mode : String) : Bool :=
  if mode = "none" then true
  else if area = "" then true
  else
    let low := strLower fmt
    let toks := wsTokens area
    if toks.any (fun t => strContains low (strLower t)) then true
    else if toks.any (fun t => strContains low (strLower (aliasGet t))) then true
    else false

/-- The area-token filter as the specification words it (claim C2): pass iff
the lowered address contains some lowered area token, or contains the
token's alias where the token actually has an entry in the lexicon. -/
def area_pass_spec (fmt area : String) : Bool :=
  if area = "" then true
  else
    let lowered := strLower fmt
    let toks := wsTokens area
    toks.any (fun tok => strContains lowered (strLower tok)) ||
      toks.any (fun tok => aliasGet tok ≠ "" && strContains lowered (strLower (aliasGet tok)))

/-! ## Grid generation

Source: `km_to_deg_lat`, `km_to_deg_lng`, `make_grid` in the full variant
(`grid` in the fast variant is the same code).  The definitions are
parametric in the number type `α` and in the trig functions `cosf`
(`math.cos`) and `radf` (`math.radians`); the theorems instantiate them at
`ℝ`, `Real.cos` and degree-to-radian conversion. -/

variable {α : Type} [Field α]

/-- `km_to_deg_lat(km) = km / 110.574`. -/
def km_to_deg_lat (km : α) : α := km / 110.574

/-- `km_to_deg_lng(km, lat_deg) = km / (111.320*cos(radians(lat_deg)) + 1e-9)`. -/
def km_to_deg_lng (cosf radf : α → α) (km lat_deg : α) : α :=
  km / (111.320 * cosf (radf lat_deg) + 1e-9)

/-- Integer range `[a, b]` inclusive (Python `range(a, b+1)`). -/
def intRange (a b : ℤ) : List ℤ :=
  (List.range (b + 1 - a).toNat).map (fun (i : ℕ) => a + (i : ℤ))

/-- `make_grid(center_lat, center_lng, radius_m, steps)`: clamps `steps` to
at least 1, takes `half = steps`, step length `(radius_m/1000)/steps` km,
and yields the `(2*half+1)²` lattice points, row by row. -/
def make_grid (cosf radf : α → α) (center_lat center_lng : α)
    (radius_m steps0 : ℤ) : List (α × α) :=
  let steps : ℤ := if steps0 < 1 then 1 else steps0
  let half := steps
  let lat_step_km : α := ((radius_m : α) / 1000) / (steps : α)
  let lng_step_km := lat_step_km
  let lat_deg_step := km_to_deg_lat lat_step_km
  let lng_deg_step := km_to_deg_lng cosf radf lng_step_km center_lat
  (intRange (-half) half).flatMap fun (dy : ℤ) =>
    (intRange (-half) half).map fun (dx : ℤ) =>
      (center_lat + (dy : α) * lat_deg_step, center_lng + (dx : α) * lng_deg_step)

/-! ## Record and response models -/

/-- One entry of a details response's `address_components` array. -/
structure AddrComp where
  types : List String
  short_name : Option String
  deriving DecidableEq

/-- One raw place summary as returned by text-search/nearby-search
(the fields the collectors read; `Option` marks fields the code guards
with `.get(...) or default` / `is None`). -/
structure RawPlace where
  name : String
  place_id : String
  formatted_address : String
  vicinity : Option String
  types : List String
  rating : Option ℚ
  user_ratings_total : Option ℤ
  business_status : String
  lat : Option ℚ
  lng : Option ℚ
  deriving DecidableEq

/-- One search response page: `results` plus optional `next_page_token`.
An `INVALID_REQUEST` page (e.g. a continuation token presented too early)
carries no results and no token. -/
structure Response where
  results : List RawPlace
  next_page_token : Option String
  deriving DecidableEq

/-- The record dict appended by `collect_textsearch` / `collect_nearby_grid`.
`rest` stands for any further dict entries added later (details enrichment
etc.); the collectors create records with `rest = []`. -/
structure Rec where
  resolved_name : String
  formatted_address : String
  place_id : String
  rating : ℚ
  user_ratings_total : ℤ
  types : String
  label_kor : String
  lat : Option ℚ
  lng : Option ℚ
  resolved_country_code : String
  business_status : String
  rest : List (String × String)
  deriving DecidableEq

/-- `KOR_TYPE_LABELS` from the source. -/
def KOR_TYPE_LABELS : List (String × List String) :=
  [("식당", ["restaurant", "food"]),
   ("카페", ["cafe"]),
   ("바/술집", ["bar", "night_club"]),
   ("관광지", ["tourist_attraction"]),
   ("숙소", ["lodging"]),
   ("미용실", ["hair_care", "beauty_salon"]),
   ("쇼핑", ["shopping_mall", "clothing_store", "store"]),
   ("병원/약국", ["hospital", "pharmacy", "doctor"]),
   ("편의점", ["convenience_store"])]

/-- `to_kor_label(types_list)`: the first label whose type set intersects
the record's types, else `"기타"`. -/
def to_kor_label (types_list : List String) : String :=
  match KOR_TYPE_LABELS.find? (fun lt => lt.2.any (fun t => types_list.contains t)) with
  | some lt => lt.1
  | none => "기타"

/-- `get_country_code_safe(place_id)`: the details response is modelled as
`Option (List AddrComp)` (`none` = the call raised).  On success, return the
`short_name` of the first component whose types contain `"country"`;
otherwise `none`. -/
def get_country_code_safe (resp : Option (List AddrComp)) : Option String :=
  match resp with
  | none => none
  | some comps =>
    match comps.find? (fun c => c.types.contains "country") with
    | none => none
    | some c => c.short_name

/-! ## Full-variant collectors

Source: `collect_textsearch` and `collect_nearby_grid`.  The HTTP layer is
modelled by a script `List Response` consumed one element per search call
(a missing script element behaves like an empty final page); the details
endpoint used by the country filter is modelled by the oracle
`details : String → Option (List AddrComp)` (input: `place_id`; `none` =
the call raised). -/

/-- The parameters of `collect_textsearch` / `collect_nearby_grid` that the
record filters read, plus the details oracle. -/
structure CollectEnv where
  area : String
  include_types : String
  exclude_types : String
  min_rating : ℚ
  min_reviews : ℤ
  target_country_code : Option String
  max_results : ℤ
  pages : ℤ
  skip_seen : Bool
  seen_ids : List String
  details : String → Option (List AddrComp)

/-- Python truthiness of `target_country_code` (`None` and `""` are falsy). -/
def targetActive (t : Option String) : Bool :=
  match t with
  | none => false
  | some s => s ≠ ""

/-- The body of `collect_textsearch`'s `for top in results` loop, up to the
`out.append(...)`: `none` means one of the `continue` filters fired. -/
def processTop (env : CollectEnv) (top : RawPlace) : Option Rec :=
  let pid := top.place_id
  if env.skip_seen && env.seen_ids.contains pid then none
  else
    let fmt := top.formatted_address
    if ¬ normalize_address fmt env.area then none
    else
      let include_set := splitCommaNE env.include_types
      let exclude_set := splitCommaNE env.exclude_types
      if include_set ≠ [] ∧ ¬ top.types.any (fun t => include_set.contains t) then none
      else if exclude_set ≠ [] ∧ top.types.any (fun t => exclude_set.contains t) then none
      else
        let rating := top.rating.getD 0
        let reviews := top.user_ratings_total.getD 0
        if rating < env.min_rating ∨ reviews < env.min_reviews then none
        else
          let cc := get_country_code_safe (env.details pid)
          if targetActive env.target_country_code ∧ cc ≠ env.target_country_code then none
          else
            some
              { resolved_name := top.name
                formatted_address := fmt
                place_id := pid
                rating := rating
                user_ratings_total := reviews
                types := String.intercalate "," top.types
                label_kor := to_kor_label top.types
                lat := top.lat
                lng := top.lng
                resolved_country_code := cc.getD ""
                business_status := top.business_status
                rest := [] }

/-- `collect_nearby_grid`'s loop body: like `processTop` but the address is
`top.get("vicinity") or top.get("formatted_address","") or ""` and there is
no include-set intersection test. -/
def processTopNearby (env : CollectEnv) (top : RawPlace) : Option Rec :=
  let pid := top.place_id
  if env.skip_seen && env.seen_ids.contains pid then none
  else
    let fmt :=
      match top.vicinity with
      | some v => if v = "" then top.formatted_address else v
      | none => top.formatted_address
    if ¬ normalize_address fmt env.area then none
    else
      let exclude_set := splitCommaNE env.exclude_types
      if exclude_set ≠ [] ∧ top.types.any (fun t => exclude_set.contains t) then none
      else
        let rating := top.rating.getD 0
        let reviews := top.user_ratings_total.getD 0
        if rating < env.min_rating ∨ reviews < env.min_reviews then none
        else
          let cc := get_country_code_safe (env.details pid)
          if targetActive env.target_country_code ∧ cc ≠ env.target_country_code then none
          else
            some
              { resolved_name := top.name
                formatted_address := fmt
                place_id := pid
                rating := rating
                user_ratings_total := reviews
                types := String.intercalate "," top.types
                label_kor := to_kor_label top.types
                lat := top.lat
                lng := top.lng
                resolved_country_code := cc.getD ""
                business_status := top.business_status
                rest := [] }

/-- Run a page's results through a loop body `f`, appending survivors to
`out`; the returned flag is `true` iff the `if len(out) >= max_results`
check right after an append fired (breaking out of the results loop). -/
def processResults (f : CollectEnv → RawPlace → Option Rec) (env : CollectEnv) :
    List RawPlace → List Rec → List Rec × Bool
  | [], out => (out, false)
  | top :: rest, out =>
    match f env top with
    | none => processResults f env rest out
    | some r =>
      let out' := out ++ [r]
      if env.max_results ≤ (out'.length : ℤ) then (out', true)
      else processResults f env rest out'

/-- The paging loop of `collect_textsearch`: `fuel = max(1, pages)` page
iterations; each consumes one scripted response, processes its results,
breaks when `len(out) >= max_results` or when the response has no (truthy)
`next_page_token`.  Also counts the number of `text_search` calls made. -/
def collectLoop (env : CollectEnv) : ℕ → List Response → List Rec → List Rec × ℕ
  | 0, _, out => (out, 0)
  | fuel + 1, script, out =>
    let js := script.headD ⟨[], none⟩
    let out' := (processResults processTop env js.results out).1
    if env.max_results ≤ (out'.length : ℤ) then (out', 1)
    else
      match js.next_page_token with
      | none => (out', 1)
      | some tok =>
        if tok = "" then (out', 1)
        else
          let r := collectLoop env fuel script.tail out'
          (r.1, r.2 + 1)

/-- `collect_textsearch(...)`, returning the collected records and the
number of search calls issued. -/
def collect_textsearch (env : CollectEnv) (script : List Response) : List Rec × ℕ :=
  collectLoop env (max 1 env.pages).toNat script []

/-- `collect_nearby_grid`'s inner `while True` token loop for one
(grid-point, type) search: consumes scripted responses until the page's
token is missing/empty or the post-append max check fires (a Python
`return out`, signalled by the flag). Returns the new `out`, the remaining
script and that flag. -/
def nearbyPages (env : CollectEnv) : List Response → List Rec → List Rec × List Response × Bool
  | [], out => (out, [], false)
  | js :: restScript, out =>
    let pr := processResults processTopNearby env js.results out
    if pr.2 then (pr.1, restScript, true)
    else
      match js.next_page_token with
      | none => (pr.1, restScript, false)
      | some tok =>
        if tok = "" then (pr.1, restScript, false)
        else nearbyPages env restScript pr.1

/-- `collect_nearby_grid`'s `for place_type in include_list` loop at one
grid point. -/
def nearbyTypes (env : CollectEnv) :
    List String → List Response → List Rec → List Rec × List Response × Bool
  | [], script, out => (out, script, false)
  | _ :: ts, script, out =>
    let st := nearbyPages env script out
    if st.2.2 then st else nearbyTypes env ts st.2.1 st.1

/-- `collect_nearby_grid`'s outer `for lat, lng in make_grid(...)` loop
(the coordinates only parameterize the issued requests, which the script
models, so the point values are not consumed). -/
def nearbyGridPts (env : CollectEnv) (include_list : List String) :
    List (α × α) → List Response → List Rec → List Rec
  | [], _, out => out
  | _ :: pts, script, out =>
    let st := nearbyTypes env include_list script out
    if st.2.2 then st.1 else nearbyGridPts env include_list pts st.2.1 st.1

/-- `collect_nearby_grid(...)`: include list defaults to `["restaurant"]`,
then one nearby-search pagination run per grid point and type. -/
def collect_nearby_grid (cosf radf : α → α) (env : CollectEnv)
    (area_lat area_lng : α) (radius_m grid_steps : ℤ) (script : List Response) :
    List Rec :=
  let include_list :=
    let l := splitCommaNE env.include_types
    if l = [] then ["restaurant"] else l
  nearbyGridPts env include_list (make_grid cosf radf area_lat area_lng radius_m grid_steps)
    script []

/-! ## The `main` dedupe of the full variant

Source: `naver_blog_to_places.py`, `main`, the `by_place` loop.  The Python
dict is modelled as an association list in insertion order (Python dicts
preserve insertion order, and assignment to an existing key keeps its
position, which is exactly what `list(by_place.values())` exposes). -/

/-- The dedupe identity key: `place_id`, or `f"{name}@{address}"` when the
`place_id` is empty/absent. -/
def dedupeKey (r : Rec) : String :=
  if r.place_id = "" then r.resolved_name ++ "@" ++ r.formatted_address else r.place_id

/-- Python `d[k] = v` on a key already present: replace in place. -/
def upsertRec : List (String × Rec) → String → Rec → List (String × Rec)
  | [], k, r => [(k, r)]
  | kv :: t, k, r => if kv.1 = k then (k, r) :: t else kv :: upsertRec t k r

/-- Association-list lookup (first entry with the key). -/
def lookupRec (l : List (String × Rec)) (k : String) : Option (String × Rec) :=
  l.find? (fun kv => kv.1 == k)

/-- One iteration of the `by_place` loop: first record of a key is stored;
a later record replaces the stored one iff its review count is strictly
larger. -/
def byPlaceStep (acc : List (String × Rec)) (r : Rec) : List (String × Rec) :=
  let k := dedupeKey r
  match lookupRec acc k with
  | none => acc ++ [(k, r)]
  | some kv =>
    if kv.2.user_ratings_total < r.user_ratings_total then upsertRec acc k r else acc

/-- `rows_final = list(by_place.values())` after folding all rows. -/
def dedupeByPlace (rows : List Rec) : List Rec :=
  (rows.foldl byPlaceStep []).map (fun kv => kv.2)

/-! ## Exporters

Source: `write_csv` and `write_geojson` (identical in both variants up to
the record shape). -/

/-- One GeoJSON Point Feature: `coordinates = [lng, lat]` and
`properties = dict(r)` (the full record, geometry fields included). -/
structure Feature where
  lng : ℚ
  lat : ℚ
  properties : Rec
  deriving DecidableEq

/-- `write_geojson(rows, path)`: one Feature per record whose `lat` and
`lng` are both non-`None`; others are skipped. -/
def write_geojson (rows : List Rec) : List Feature :=
  rows.filterMap fun r =>
    match r.lat, r.lng with
    | some la, some ln => some { lng := ln, lat := la, properties := r }
    | _, _ => none

/-- `write_csv(rows, path)`: the `for r in rows: w.writerow(r)` loop — one
row per record, in order (the written table is modelled by its record
list). -/
def write_csv (rows : List Rec) : List Rec :=
  rows.foldl (fun acc r => acc ++ [r]) []

/-! ## The seen-cache location

Source: `main` of the full variant:
`seen_path = os.path.join(args.out_dir, "seen_place_ids.json")`. -/

/-- The search/run parameters `main` receives (the ones relevant to cache
keying). -/
structure MainArgs where
  country : String
  area : String
  query : String
  out_dir : String
  deriving DecidableEq

/-- `os.path.join(out_dir, "seen_place_ids.json")` (modelled as
concatenation with a path separator). -/
def seen_path (a : MainArgs) : String :=
  a.out_dir ++ "/" ++ "seen_place_ids.json"

/-! ## The fast 100-cap variant

Source: `naver_blog_to_places.py.py` — `text_search`, the `uniq` dedupe and
the `cap` truncation in `main`. -/

/-- A record appended by the fast variant's `text_search`/`nearby`. -/
structure FRec where
  name : String
  formatted_address : String
  place_id : String
  rating : ℚ
  user_ratings_total : ℤ
  types : String
  lat : Option ℚ
  lng : Option ℚ
  google_maps_url : String
  deriving DecidableEq

/-- Parameters of the fast variant's `text_search`. -/
structure FastEnv where
  area : String
  area_filter : String
  include_types : String
  min_rating : ℚ
  min_reviews : ℤ
  max_results : ℤ
  pages : ℤ

/-- Python `s.split(",")` (empty chunks kept — the fast variant does not
filter them out). -/
def splitComma (s : String) : List String :=
  (chSplit (fun c => c == ',') [] s.data).map fun cs => String.mk cs

/-- Loop body of the fast `text_search`'s `for p in results`. -/
def processTopFast (env : FastEnv) (p : RawPlace) : Option FRec :=
  let fmt := p.formatted_address
  if ¬ area_pass fmt env.area env.area_filter then none
  else if env.include_types ≠ "" ∧
      ¬ p.types.any (fun t => (splitComma env.include_types).contains t) then none
  else
    let rating := p.rating.getD 0
    let reviews := p.user_ratings_total.getD 0
    if rating < env.min_rating ∨ reviews < env.min_reviews then none
    else
      some
        { name := p.name
          formatted_address := fmt
          place_id := p.place_id
          rating := rating
          user_ratings_total := reviews
          types := String.intercalate "," p.types
          lat := p.lat
          lng := p.lng
          google_maps_url := "https://www.google.com/maps/place/?q=place_id:" ++ p.place_id }

/-- The fast `text_search` page-results loop, flag = the `return out` right
after an append reached `max_results`. -/
def processResultsFast (env : FastEnv) : List RawPlace → List FRec → List FRec × Bool
  | [], out => (out, false)
  | p :: rest, out =>
    match processTopFast env p with
    | none => processResultsFast env rest out
    | some r =>
      let out' := out ++ [r]
      if env.max_results ≤ (out'.length : ℤ) then (out', true)
      else processResultsFast env rest out'

/-- The fast `text_search` paging loop (`for _ in range(max(1, pages))`):
the flag returns immediately; otherwise continue while a truthy
`next_page_token` exists. -/
def fastLoop (env : FastEnv) : ℕ → List Response → List FRec → List FRec
  | 0, _, out => out
  | fuel + 1, script, out =>
    let js := script.headD ⟨[], none⟩
    let pr := processResultsFast env js.results out
    if pr.2 then pr.1
    else
      match js.next_page_token with
      | none => pr.1
      | some tok => if tok = "" then pr.1 else fastLoop env fuel script.tail pr.1

/-- `text_search(...)` of the fast variant. -/
def fast_text_search (env : FastEnv) (script : List Response) : List FRec :=
  fastLoop env (max 1 env.pages).toNat script []

/-- One iteration of the fast `main`'s `uniq` loop: keep the first record
per `place_id`; records with an empty/absent `place_id` are dropped. -/
def uniqStep (acc : List (String × FRec)) (r : FRec) : List (String × FRec) :=
  if r.place_id ≠ "" ∧ (acc.find? (fun kv => kv.1 == r.place_id)) = none then
    acc ++ [(r.place_id, r)]
  else acc

/-- `rows = list(uniq.values())` of the fast `main`. -/
def uniqDedupe (rows : List FRec) : List FRec :=
  (rows.foldl uniqStep []).map (fun kv => kv.2)

/-- `cap = min(100, max(1, args.max_results))`. -/
def capOf (m : ℤ) : ℤ := min 100 (max 1 m)

/-- The fast `main`'s dedupe-and-truncate: `list(uniq.values())[:cap]`. -/
def fastFinalize (rows : List FRec) (m : ℤ) : List FRec :=
  (uniqDedupe rows).take (capOf m).toNat

/-- The fast `main` in text mode: collect with `max_results = cap`, then
dedupe and truncate to `cap`. -/
def fastMainText (env : FastEnv) (script : List Response) : List FRec :=
  fastFinalize (fast_text_search { env with max_results := capOf env.max_results } script)
    env.max_results

/-! ## Helper lemmas -/

theorem strAppendRightCancel (s t u : String) (h : s ++ u = t ++ u) : s = t := by
  apply String.ext
  have hd := congrArg String.data h
  rw [String.data_append, String.data_append] at hd
  exact List.append_cancel_right hd

theorem intRange_mem (a b x : ℤ) : x ∈ intRange a b ↔ a ≤ x ∧ x ≤ b := by
  unfold intRange
  constructor
  · intro hx
    rcases List.mem_map.mp hx with ⟨i, hi, rfl⟩
    have := List.mem_range.mp hi
    omega
  · rintro ⟨h1, h2⟩
    refine List.mem_map.mpr ⟨(x - a).toNat, List.mem_range.mpr ?_, ?_⟩ <;> omega

theorem intRange_length (a b : ℤ) : (intRange a b).length = (b + 1 - a).toNat := by
  unfold intRange
  rw [List.length_map, List.length_range]

/-! ## Claim theorems -/

/-- **C2** (status: code_bug).  The claim says the area-token filter passes a
record only if its address contains some area token or that token's alias
from the lexicon.  The code's `AREA_ALIAS.get(tok, "")` defaults to the
empty string, and `"" in lowered` is always `True` in Python, so any area
containing a token absent from the lexicon (here `"파리"`, Paris) passes
every address.  `area_pass_spec` is the filter as the claim words it; at
this input the code passes while the claim excludes, in both variants. -/
theorem C2_area_filter_empty_alias_bug :
    normalize_address "somewhere in rome" "파리" = true ∧
    area_pass "somewhere in rome" "파리" "loose" = true ∧
    area_pass_spec "somewhere in rome" "파리" = false ∧
    normalize_address "gangnam, seoul" "도쿄" = area_pass_spec "gangnam, seoul" "도쿄" := by
  decide

/-- **C9** (counterexample).  Two runs whose search-parameter tuples
(country, area, query) differ in every component but share an output
directory get the same seen-cache location: the cache key is not derived
from the search parameters. -/
theorem C9_counterexample :
    (MainArgs.mk "일본" "도쿄" "라멘" "/tmp").query ≠
      (MainArgs.mk "태국" "방콕" "쌀국수" "/tmp").query ∧
    seen_path (MainArgs.mk "일본" "도쿄" "라멘" "/tmp") =
      seen_path (MainArgs.mk "태국" "방콕" "쌀국수" "/tmp") := by
  decide

/-- **C9** (amended).  The seen-cache location is
`os.path.join(out_dir, "seen_place_ids.json")`: it depends on the output
directory and on nothing else — two runs share a cache entry iff they share
an output directory, regardless of country/area/query. -/
theorem C9_cache_key_is_out_dir_only (a b : MainArgs) :
    seen_path a = seen_path b ↔ a.out_dir = b.out_dir := by
  constructor
  · intro h
    simp only [seen_path, String.append_assoc] at h
    exact strAppendRightCancel _ _ _ h
  · intro h
    simp [seen_path, h]

/-- **C10** (confirmed).  In the fast variant, `cap = min(100, max(1,
max_results))`; the final record list is `list(uniq.values())[:cap]`, so its
length is at most `min(100, max(1, max_results))` and in particular at most
100, whatever rows the collection phase produced (either mode) and whatever
`--max_results` was requested. -/
theorem C10_fast_hard_cap (rows : List FRec) (m : ℤ) (env : FastEnv)
    (script : List Response) :
    ((fastFinalize rows m).length : ℤ) ≤ min 100 (max 1 m) ∧
    (fastFinalize rows m).length ≤ 100 ∧
    ((fastMainText env script).length : ℤ) ≤ min 100 (max 1 env.max_results) ∧
    (fastMainText env script).length ≤ 100 := by
  have key : ∀ (rs : List FRec) (mm : ℤ),
      ((fastFinalize rs mm).length : ℤ) ≤ min 100 (max 1 mm) ∧
      (fastFinalize rs mm).length ≤ 100 := by
    intro rs mm
    have h1 : (fastFinalize rs mm).length ≤ (capOf mm).toNat := by
      unfold fastFinalize
      exact List.length_take_le _ _
    have h2 : (capOf mm).toNat ≤ 100 := by
      unfold capOf
      omega
    refine ⟨?_, le_trans h1 h2⟩
    have h3 : capOf mm = min 100 (max 1 mm) := rfl
    omega
  exact ⟨(key rows m).1, (key rows m).2, (key _ env.max_results).1, (key _ env.max_results).2⟩

/-- **C7** (confirmed).  For `steps = N ≥ 1`, grid mode generates the
`(2N+1) × (2N+1)` lattice of sub-search centers with offsets `-N..+N` on
each axis; the step is `(R/1000)/N` kilometers, converted to degrees
latitude by dividing by `110.574` and to degrees longitude by additionally
dividing by `cos` of the center latitude (the code's
`111.320 * cos(radians(lat)) + 1e-9` denominator). -/
theorem C7_make_grid_lattice (center_lat center_lng : ℝ) (R N : ℤ) (hN : 1 ≤ N) :
    ((make_grid Real.cos (fun d => d * (Real.pi / 180)) center_lat center_lng R N).length : ℤ)
      = (2 * N + 1) * (2 * N + 1) ∧
    ∀ p : ℝ × ℝ,
      p ∈ make_grid Real.cos (fun d => d * (Real.pi / 180)) center_lat center_lng R N ↔
        ∃ dy dx : ℤ, -N ≤ dy ∧ dy ≤ N ∧ -N ≤ dx ∧ dx ≤ N ∧
          p = (center_lat + (dy : ℝ) * (((R : ℝ) / 1000) / (N : ℝ) / 110.574),
               center_lng + (dx : ℝ) * (((R : ℝ) / 1000) / (N : ℝ) /
                 (111.320 * Real.cos (center_lat * (Real.pi / 180)) + 1e-9))) := by
  have hif : (if N < 1 then (1 : ℤ) else N) = N := by omega
  constructor
  · simp only [make_grid, hif, List.length_flatMap, Function.comp_def, List.length_map,
      intRange_length]
    rw [List.map_const', List.sum_replicate, intRange_length, smul_eq_mul]
    have h2 : ((N + 1 - -N).toNat : ℤ) = 2 * N + 1 := by omega
    push_cast
    rw [h2]
  · intro p
    simp only [make_grid, hif, List.mem_flatMap, List.mem_map, intRange_mem]
    constructor
    · rintro ⟨dy, ⟨hy1, hy2⟩, dx, ⟨hx1, hx2⟩, rfl⟩
      exact ⟨dy, dx, hy1, hy2, hx1, hx2, rfl⟩
    · rintro ⟨dy, dx, hy1, hy2, hx1, hx2, rfl⟩
      exact ⟨dy, ⟨hy1, hy2⟩, dx, ⟨hx1, hx2⟩, rfl⟩

/-- Witness for C7 at the spec's scenario: radius 3000 m, steps 2, centered
at the origin — a 5×5 lattice. -/
theorem C7_make_grid_lattice_witness :
    (1 : ℤ) ≤ 2 ∧
    (((make_grid Real.cos (fun d => d * (Real.pi / 180)) (0 : ℝ) 0 3000 2).length : ℤ)
        = (2 * 2 + 1) * (2 * 2 + 1) ∧
      ∀ p : ℝ × ℝ,
        p ∈ make_grid Real.cos (fun d => d * (Real.pi / 180)) (0 : ℝ) 0 3000 2 ↔
          ∃ dy dx : ℤ, -2 ≤ dy ∧ dy ≤ 2 ∧ -2 ≤ dx ∧ dx ≤ 2 ∧
            p = ((0 : ℝ) + (dy : ℝ) * (((3000 : ℝ) / 1000) / ((2 : ℤ) : ℝ) / 110.574),
                 (0 : ℝ) + (dx : ℝ) * (((3000 : ℝ) / 1000) / ((2 : ℤ) : ℝ) /
                   (111.320 * Real.cos ((0 : ℝ) * (Real.pi / 180)) + 1e-9)))) :=
  ⟨by decide, C7_make_grid_lattice 0 0 3000 2 (by decide)⟩

/-! ### Inversion lemmas for the collector loop bodies -/

theorem processTop_some_spec {env : CollectEnv} {top : RawPlace} {r : Rec}
    (h : processTop env top = some r) :
    r.place_id = top.place_id ∧
    r.rating = top.rating.getD 0 ∧
    r.user_ratings_total = top.user_ratings_total.getD 0 ∧
    env.min_rating ≤ r.rating ∧
    env.min_reviews ≤ r.user_ratings_total ∧
    (targetActive env.target_country_code = true →
      get_country_code_safe (env.details top.place_id) = env.target_country_code) := by
  simp only [processTop] at h
  split_ifs at h with h1 h2 h3 h4 h5 h6
  rcases Option.some.inj h with rfl
  push_neg at h5
  refine ⟨rfl, rfl, rfl, h5.1, h5.2, ?_⟩
  intro hact
  by_contra hcc
  exact h6 ⟨hact, hcc⟩

theorem processTopNearby_some_spec {env : CollectEnv} {top : RawPlace} {r : Rec}
    (h : processTopNearby env top = some r) :
    r.place_id = top.place_id ∧
    r.rating = top.rating.getD 0 ∧
    r.user_ratings_total = top.user_ratings_total.getD 0 ∧
    env.min_rating ≤ r.rating ∧
    env.min_reviews ≤ r.user_ratings_total ∧
    (targetActive env.target_country_code = true →
      get_country_code_safe (env.details top.place_id) = env.target_country_code) := by
  simp only [processTopNearby] at h
  split_ifs at h with h1 h2 h3 h4 h5
  rcases Option.some.inj h with rfl
  push_neg at h4
  refine ⟨rfl, rfl, rfl, h4.1, h4.2, ?_⟩
  intro hact
  by_contra hcc
  exact h5 ⟨hact, hcc⟩

theorem processTop_excluded_of_cc {env : CollectEnv} {top : RawPlace}
    (hact : targetActive env.target_country_code = true)
    (hcc : get_country_code_safe (env.details top.place_id) ≠ env.target_country_code) :
    processTop env top = none ∧ processTopNearby env top = none := by
  constructor
  · simp only [processTop]
    split_ifs with h1 h2 h3 h4 h5 h6
    any_goals rfl
    exact absurd ⟨hact, hcc⟩ h6
  · simp only [processTopNearby]
    split_ifs with h1 h2 h3 h4 h5
    any_goals rfl
    exact absurd ⟨hact, hcc⟩ h5

theorem mem_processResults (f : CollectEnv → RawPlace → Option Rec) (env : CollectEnv) :
    ∀ (rs : List RawPlace) (out : List Rec) (r : Rec),
      r ∈ (processResults f env rs out).1 →
      r ∈ out ∨ ∃ raw, raw ∈ rs ∧ f env raw = some r := by
  intro rs
  induction rs with
  | nil =>
    intro out r h
    exact Or.inl h
  | cons top rest ih =>
    intro out r h
    unfold processResults at h
    cases hf : f env top with
    | none =>
      simp only [hf] at h
      rcases ih out r h with h1 | ⟨raw, hmem, heq⟩
      · exact Or.inl h1
      · exact Or.inr ⟨raw, List.mem_cons_of_mem _ hmem, heq⟩
    | some r0 =>
      simp only [hf] at h
      by_cases hc : env.max_results ≤ ((out ++ [r0]).length : ℤ)
      · rw [if_pos hc] at h
        rcases List.mem_append.mp h with h1 | h1
        · exact Or.inl h1
        · have : r = r0 := by simpa using h1
          exact Or.inr ⟨top, List.mem_cons_self _ _, by rw [hf, this]⟩
      · rw [if_neg hc] at h
        rcases ih (out ++ [r0]) r h with h1 | ⟨raw, hmem, heq⟩
        · rcases List.mem_append.mp h1 with h2 | h2
          · exact Or.inl h2
          · have : r = r0 := by simpa using h2
            exact Or.inr ⟨top, List.mem_cons_self _ _, by rw [hf, this]⟩
        · exact Or.inr ⟨raw, List.mem_cons_of_mem _ hmem, heq⟩

theorem mem_collectLoop (env : CollectEnv) :
    ∀ (fuel : ℕ) (script : List Response) (out : List Rec) (r : Rec),
      r ∈ (collectLoop env fuel script out).1 →
      r ∈ out ∨ ∃ raw, processTop env raw = some r := by
  intro fuel
  induction fuel with
  | zero =>
    intro script out r h
    exact Or.inl h
  | succ n ih =>
    intro script out r h
    unfold collectLoop at h
    set js := script.headD ⟨[], none⟩ with hjs
    by_cases hc :
        env.max_results ≤ (((processResults processTop env js.results out).1).length : ℤ)
    · rw [if_pos hc] at h
      rcases mem_processResults processTop env js.results out r h with h1 | ⟨raw, _, heq⟩
      · exact Or.inl h1
      · exact Or.inr ⟨raw, heq⟩
    · rw [if_neg hc] at h
      have step :
          r ∈ (processResults processTop env js.results out).1 →
          r ∈ out ∨ ∃ raw, processTop env raw = some r := by
        intro hmem
        rcases mem_processResults processTop env js.results out r hmem with h1 | ⟨raw, _, heq⟩
        · exact Or.inl h1
        · exact Or.inr ⟨raw, heq⟩
      split at h
      · exact step h
      · split at h
        · exact step h
        · rcases ih script.tail (processResults processTop env js.results out).1 r h with
            h1 | ⟨raw, heq⟩
          · exact step h1
          · exact Or.inr ⟨raw, heq⟩

theorem mem_nearbyPages (env : CollectEnv) :
    ∀ (script : List Response) (out : List Rec) (r : Rec),
      r ∈ (nearbyPages env script out).1 →
      r ∈ out ∨ ∃ raw, processTopNearby env raw = some r := by
  intro script
  induction script with
  | nil =>
    intro out r h
    exact Or.inl h
  | cons js rest ih =>
    intro out r h
    have step :
        r ∈ (processResults processTopNearby env js.results out).1 →
        r ∈ out ∨ ∃ raw, processTopNearby env raw = some r := by
      intro hmem
      rcases mem_processResults processTopNearby env js.results out r hmem with h1 | ⟨raw, _, heq⟩
      · exact Or.inl h1
      · exact Or.inr ⟨raw, heq⟩
    simp only [nearbyPages] at h
    split at h
    · exact step h
    · split at h
      · exact step h
      · split at h
        · exact step h
        · rcases ih (processResults processTopNearby env js.results out).1 r h with h1 | hex
          · exact step h1
          · exact Or.inr hex

theorem mem_nearbyTypes (env : CollectEnv) :
    ∀ (ts : List String) (script : List Response) (out : List Rec) (r : Rec),
      r ∈ (nearbyTypes env ts script out).1 →
      r ∈ out ∨ ∃ raw, processTopNearby env raw = some r := by
  intro ts
  induction ts with
  | nil =>
    intro script out r h
    exact Or.inl h
  | cons t ts ih =>
    intro script out r h
    simp only [nearbyTypes] at h
    split at h
    · exact mem_nearbyPages env script out r h
    · rcases ih (nearbyPages env script out).2.1 (nearbyPages env script out).1 r h with h1 | hex
      · exact mem_nearbyPages env script out r h1
      · exact Or.inr hex

omit [Field α] in
theorem mem_nearbyGridPts (env : CollectEnv) (inc : List String) :
    ∀ (pts : List (α × α)) (script : List Response) (out : List Rec) (r : Rec),
      r ∈ nearbyGridPts env inc pts script out →
      r ∈ out ∨ ∃ raw, processTopNearby env raw = some r := by
  intro pts
  induction pts with
  | nil =>
    intro script out r h
    exact Or.inl h
  | cons pt pts ih =>
    intro script out r h
    simp only [nearbyGridPts] at h
    split at h
    · exact mem_nearbyTypes env inc script out r h
    · rcases ih (nearbyTypes env inc script out).2.1 (nearbyTypes env inc script out).1 r h with
        h1 | hex
      · exact mem_nearbyTypes env inc script out r h1
      · exact Or.inr hex

theorem mem_collect_textsearch {env : CollectEnv} {script : List Response} {r : Rec}
    (h : r ∈ (collect_textsearch env script).1) :
    ∃ raw, processTop env raw = some r := by
  rcases mem_collectLoop env (max 1 env.pages).toNat script [] r h with h1 | hex
  · cases h1
  · exact hex

theorem mem_collect_nearby_grid {cosf radf : α → α} {env : CollectEnv}
    {alat alng : α} {radius_m grid_steps : ℤ} {script : List Response} {r : Rec}
    (h : r ∈ collect_nearby_grid cosf radf env alat alng radius_m grid_steps script) :
    ∃ raw, processTopNearby env raw = some r := by
  unfold collect_nearby_grid at h
  rcases mem_nearbyGridPts env _ _ script [] r h with h1 | hex
  · cases h1
  · exact hex

theorem upsertRec_mem :
    ∀ (l : List (String × Rec)) (k : String) (v : Rec) (kv : String × Rec),
      kv ∈ upsertRec l k v → kv ∈ l ∨ kv = (k, v) := by
  intro l
  induction l with
  | nil =>
    intro k v kv h
    right
    simpa [upsertRec] using h
  | cons e t ih =>
    intro k v kv h
    unfold upsertRec at h
    split at h
    · rcases List.mem_cons.mp h with h1 | h1
      · exact Or.inr h1
      · exact Or.inl (List.mem_cons_of_mem _ h1)
    · rcases List.mem_cons.mp h with h1 | h1
      · left
        rw [h1]
        exact List.mem_cons_self _ _
      · rcases ih k v kv h1 with h2 | h2
        · exact Or.inl (List.mem_cons_of_mem _ h2)
        · exact Or.inr h2

theorem byPlace_fold_entries (rows : List Rec) :
    ∀ (acc : List (String × Rec)) (kv : String × Rec),
      kv ∈ rows.foldl byPlaceStep acc → kv ∈ acc ∨ kv.2 ∈ rows := by
  induction rows with
  | nil =>
    intro acc kv h
    exact Or.inl h
  | cons r rest ih =>
    intro acc kv h
    rcases ih (byPlaceStep acc r) kv h with h1 | h2
    · simp only [byPlaceStep] at h1
      split at h1
      · rcases List.mem_append.mp h1 with h2 | h2
        · exact Or.inl h2
        · right
          have : kv = (dedupeKey r, r) := by simpa using h2
          rw [this]
          exact List.mem_cons_self _ _
      · split at h1
        · rcases upsertRec_mem _ _ _ _ h1 with h2 | h2
          · exact Or.inl h2
          · right
            rw [h2]
            exact List.mem_cons_self _ _
        · exact Or.inl h1
    · exact Or.inr (List.mem_cons_of_mem _ h2)

theorem dedupe_subset (rows : List Rec) : ∀ r ∈ dedupeByPlace rows, r ∈ rows := by
  intro r h
  unfold dedupeByPlace at h
  rcases List.mem_map.mp h with ⟨kv, hkv, rfl⟩
  rcases byPlace_fold_entries rows [] kv hkv with h1 | h2
  · cases h1
  · exact h2

/-! ### Sample run used by witnesses -/

/-- A sample environment: quality thresholds 4.2/100, Japan as target
country, details oracle returning a `JP` country component for every id. -/
def envQ : CollectEnv :=
  { area := "도쿄 시부야", include_types := "", exclude_types := "",
    min_rating := mkRat 21 5, min_reviews := 100, target_country_code := some "JP",
    max_results := 600, pages := 1, skip_seen := false, seen_ids := [],
    details := fun _ => some [{ types := ["country", "political"], short_name := some "JP" }] }

/-- A raw search hit that should survive all of `envQ`'s filters. -/
def rawPass : RawPlace :=
  { name := "라멘집", place_id := "P1", formatted_address := "도쿄 시부야 1-2-3",
    vicinity := none, types := ["restaurant"], rating := some (mkRat 9 2),
    user_ratings_total := some 120, business_status := "OPERATIONAL",
    lat := some 35, lng := some 139 }

/-- The record `collect_textsearch` builds from `rawPass` under `envQ`. -/
def recPass : Rec :=
  { resolved_name := "라멘집", formatted_address := "도쿄 시부야 1-2-3", place_id := "P1",
    rating := mkRat 9 2, user_ratings_total := 120, types := "restaurant", label_kor := "식당",
    lat := some 35, lng := some 139, resolved_country_code := "JP",
    business_status := "OPERATIONAL", rest := [] }

/-- **C3** (confirmed).  Every record surviving either collector satisfies
`min_rating ≤ rating` and `min_reviews ≤ review count`, where the stored
rating is `top.get("rating") or 0.0` and the stored review count is
`top.get("user_ratings_total") or 0` (absent values treated as 0); and the
dedupe only selects among collected records, so every exported record is a
collected one. -/
theorem C3_quality_filter (env : CollectEnv) (script script2 : List Response)
    (cosf radf : α → α) (alat alng : α) (radius_m grid_steps : ℤ) :
    (∀ r ∈ (collect_textsearch env script).1,
        env.min_rating ≤ r.rating ∧ env.min_reviews ≤ r.user_ratings_total ∧
        (∃ raw : RawPlace, r.rating = raw.rating.getD 0 ∧
          r.user_ratings_total = raw.user_ratings_total.getD 0)) ∧
    (∀ r ∈ collect_nearby_grid cosf radf env alat alng radius_m grid_steps script2,
        env.min_rating ≤ r.rating ∧ env.min_reviews ≤ r.user_ratings_total) ∧
    (∀ rows : List Rec, ∀ r ∈ dedupeByPlace rows, r ∈ rows) := by
  refine ⟨?_, ?_, ?_⟩
  · intro r h
    rcases mem_collect_textsearch h with ⟨raw, hr⟩
    have hs := processTop_some_spec hr
    exact ⟨hs.2.2.2.1, hs.2.2.2.2.1, raw, hs.2.1, hs.2.2.1⟩
  · intro r h
    rcases mem_collect_nearby_grid h with ⟨raw, hr⟩
    have hs := processTopNearby_some_spec hr
    exact ⟨hs.2.2.2.1, hs.2.2.2.2.1⟩
  · exact dedupe_subset

/-- Witness for C3: a concrete one-page run of `collect_textsearch` under
`envQ` contains `recPass`, whose rating and review count meet the 4.2/100
thresholds. -/
theorem C3_quality_filter_witness :
    recPass ∈ (collect_textsearch envQ [⟨[rawPass], none⟩]).1 ∧
    (envQ.min_rating ≤ recPass.rating ∧ envQ.min_reviews ≤ recPass.user_ratings_total ∧
      (∃ raw : RawPlace, recPass.rating = raw.rating.getD 0 ∧
        recPass.user_ratings_total = raw.user_ratings_total.getD 0)) :=
  ⟨by decide,
    (C3_quality_filter envQ [⟨[rawPass], none⟩] [] (id : ℚ → ℚ) id 0 0 0 0).1 recPass
      (by decide)⟩

/-- **C4** (confirmed).  When a non-empty target country code is configured,
a record survives either collector only if the details lookup for its place
id yields exactly that country code; conversely a failed or mismatching
lookup (`get_country_code_safe` yielding `none` or a different code) makes
the loop body skip the record in both collectors. -/
theorem C4_country_filter (env : CollectEnv) (script script2 : List Response)
    (cosf radf : α → α) (alat alng : α) (radius_m grid_steps : ℤ)
    (t : String) (ht : env.target_country_code = some t) (ht2 : t ≠ "") :
    (∀ r ∈ (collect_textsearch env script).1,
        get_country_code_safe (env.details r.place_id) = some t) ∧
    (∀ r ∈ collect_nearby_grid cosf radf env alat alng radius_m grid_steps script2,
        get_country_code_safe (env.details r.place_id) = some t) ∧
    (∀ top : RawPlace, get_country_code_safe (env.details top.place_id) ≠ some t →
        processTop env top = none ∧ processTopNearby env top = none) := by
  have hact : targetActive env.target_country_code = true := by
    rw [ht]
    simpa [targetActive] using ht2
  refine ⟨?_, ?_, ?_⟩
  · intro r h
    rcases mem_collect_textsearch h with ⟨raw, hr⟩
    have hs := processTop_some_spec hr
    have hcc := hs.2.2.2.2.2 hact
    rw [hs.1, hcc, ht]
  · intro r h
    rcases mem_collect_nearby_grid h with ⟨raw, hr⟩
    have hs := processTopNearby_some_spec hr
    have hcc := hs.2.2.2.2.2 hact
    rw [hs.1, hcc, ht]
  · intro top hcc
    refine processTop_excluded_of_cc hact ?_
    rw [ht]
    exact hcc

/-- Witness for C4: in the concrete `envQ` run, the surviving record's
details lookup yields `JP`, the configured target. -/
theorem C4_country_filter_witness :
    (envQ.target_country_code = some "JP" ∧ "JP" ≠ "" ∧
      recPass ∈ (collect_textsearch envQ [⟨[rawPass], none⟩]).1) ∧
    get_country_code_safe (envQ.details recPass.place_id) = some "JP" :=
  ⟨⟨rfl, by decide, by decide⟩,
    (C4_country_filter envQ [⟨[rawPass], none⟩] [] (id : ℚ → ℚ) id 0 0 0 0 "JP" rfl
      (by decide)).1 recPass (by decide)⟩

/-! ### C5: pagination after an invalid-request page -/

/-- A permissive environment (no filters active) for the pagination runs. -/
def envC5 : CollectEnv :=
  { area := "", include_types := "", exclude_types := "",
    min_rating := 0, min_reviews := 0, target_country_code := none,
    max_results := 600, pages := 4, skip_seen := false, seen_ids := [],
    details := fun _ => none }

/-- The raw hit a successful retry of page 2 would deliver. -/
def rawRetry : RawPlace :=
  { name := "라멘집 2호점", place_id := "P2", formatted_address := "도쿄 신주쿠 4-5-6",
    vicinity := none, types := ["restaurant"], rating := some (mkRat 9 2),
    user_ratings_total := some 80, business_status := "OPERATIONAL",
    lat := some 35, lng := some 139 }

/-- Page 1 returns a record and a continuation token; the next call answers
`INVALID_REQUEST` (no results, no token); a retry of that page — were one
issued — would succeed and deliver `rawRetry`. -/
def scriptC5 : List Response :=
  [{ results := [rawPass], next_page_token := some "TOKEN" },
   { results := [], next_page_token := none },
   { results := [rawRetry], next_page_token := none }]

/-- **C5** (counterexample).  On `scriptC5` the collector issues exactly two
search calls and keeps only page 1's record: it never issues the third
(retry) request the claim requires, so the retry's record is not collected —
after the invalid-request page it simply stops. -/
theorem C5_counterexample :
    (collect_textsearch envC5 scriptC5).2 = 2 ∧
    ¬ (collect_textsearch envC5 scriptC5).2 = 3 ∧
    (collect_textsearch envC5 scriptC5).1.length = 1 := by
  decide

/-- **C5** (amended).  When the page after a token-bearing page comes back
as invalid-request (no results, no truthy token), `collect_textsearch` does
not retry: it makes exactly one call for the failed page (two calls in
total here) and returns exactly the records collected through the prior
page. -/
theorem C5_no_retry (env : CollectEnv) (r1s : List RawPlace) (tok : String)
    (rest : List Response) (htok : tok ≠ "") (hp : 2 ≤ env.pages)
    (hm : ¬ env.max_results ≤ (((processResults processTop env r1s []).1).length : ℤ)) :
    collect_textsearch env ({ results := r1s, next_page_token := some tok } ::
        { results := [], next_page_token := none } :: rest)
      = ((processResults processTop env r1s []).1, 2) := by
  unfold collect_textsearch
  obtain ⟨n, hn⟩ : ∃ n, (max 1 env.pages).toNat = n + 2 := ⟨env.pages.toNat - 2, by omega⟩
  rw [hn]
  simp only [collectLoop, List.headD, List.tail, processResults, if_neg hm, if_neg htok]

/-- Witness for the amended C5 at the concrete script. -/
theorem C5_no_retry_witness :
    ("TOKEN" ≠ "" ∧ 2 ≤ envC5.pages ∧
      ¬ envC5.max_results ≤ (((processResults processTop envC5 [rawPass] []).1).length : ℤ)) ∧
    collect_textsearch envC5
        ({ results := [rawPass], next_page_token := some "TOKEN" } ::
          { results := [], next_page_token := none } ::
            [{ results := [rawRetry], next_page_token := none }])
      = ((processResults processTop envC5 [rawPass] []).1, 2) :=
  ⟨⟨by decide, by decide, by decide⟩,
    C5_no_retry envC5 [rawPass] "TOKEN" [{ results := [rawRetry], next_page_token := none }]
      (by decide) (by decide) (by decide)⟩

/-! ### Per-key analysis of the `by_place` dedupe -/

/-- The single-key merge the `by_place` loop performs: first record stored,
later record replaces it iff its review count is strictly larger. -/
def mergeOpt (b : Option Rec) (r : Rec) : Option Rec :=
  match b with
  | none => some r
  | some v => if v.user_ratings_total < r.user_ratings_total then some r else some v

/-- The record stored under key `k`. -/
def valueAt (l : List (String × Rec)) (k : String) : Option Rec :=
  (lookupRec l k).map (fun kv => kv.2)

theorem lookupRec_nil (k : String) : lookupRec [] k = none := rfl

theorem lookupRec_cons (a : String × Rec) (t : List (String × Rec)) (k : String) :
    lookupRec (a :: t) k = if a.1 = k then some a else lookupRec t k := by
  unfold lookupRec
  rcases eq_or_ne a.1 k with h | h
  · rw [List.find?_cons_of_pos _ (by simpa using h), if_pos h]
  · rw [List.find?_cons_of_neg _ (by simpa using h), if_neg h]

theorem lookupRec_append_single (l : List (String × Rec)) (e : String × Rec) (k : String) :
    lookupRec (l ++ [e]) k =
      match lookupRec l k with
      | some kv => some kv
      | none => if e.1 = k then some e else none := by
  induction l with
  | nil =>
    rw [List.nil_append, lookupRec_nil, lookupRec_cons, lookupRec_nil]
  | cons a t ih =>
    rw [List.cons_append, lookupRec_cons, lookupRec_cons]
    rcases eq_or_ne a.1 k with h | h
    · rw [if_pos h, if_pos h]
    · rw [if_neg h, if_neg h, ih]

theorem upsertRec_cons (a : String × Rec) (t : List (String × Rec)) (k : String) (v : Rec) :
    upsertRec (a :: t) k v = if a.1 = k then (k, v) :: t else a :: upsertRec t k v := rfl

theorem lookupRec_upsert_self :
    ∀ (l : List (String × Rec)) (k : String) (v : Rec),
      lookupRec (upsertRec l k v) k = some (k, v) := by
  intro l
  induction l with
  | nil =>
    intro k v
    rw [show upsertRec [] k v = [(k, v)] from rfl, lookupRec_cons, if_pos rfl]
  | cons a t ih =>
    intro k v
    rw [upsertRec_cons]
    rcases eq_or_ne a.1 k with h | h
    · rw [if_pos h, lookupRec_cons, if_pos rfl]
    · rw [if_neg h, lookupRec_cons, if_neg h, ih]

theorem lookupRec_upsert_ne :
    ∀ (l : List (String × Rec)) (k k' : String) (v : Rec), k' ≠ k →
      lookupRec (upsertRec l k v) k' = lookupRec l k' := by
  intro l
  induction l with
  | nil =>
    intro k k' v hne
    rw [show upsertRec [] k v = [(k, v)] from rfl, lookupRec_cons,
      if_neg (by simpa using hne.symm)]
  | cons a t ih =>
    intro k k' v hne
    rw [upsertRec_cons]
    rcases eq_or_ne a.1 k with h | h
    · have hk' : ¬ ((k, v).1 = k') := fun hh => hne (by simpa using hh.symm)
      have ha' : ¬ (a.1 = k') := by
        rw [h]
        exact fun hh => hne hh.symm
      rw [if_pos h, lookupRec_cons, lookupRec_cons, if_neg hk', if_neg ha']
    · rw [if_neg h, lookupRec_cons, lookupRec_cons]
      rcases eq_or_ne a.1 k' with h2 | h2
      · rw [if_pos h2, if_pos h2]
      · rw [if_neg h2, if_neg h2, ih k k' v hne]

theorem valueAt_byPlaceStep (acc : List (String × Rec)) (r : Rec) (k : String) :
    valueAt (byPlaceStep acc r) k =
      if dedupeKey r = k then mergeOpt (valueAt acc k) r else valueAt acc k := by
  unfold byPlaceStep
  rcases hse : lookupRec acc (dedupeKey r) with _ | kv
  · simp only [hse]
    rcases eq_or_ne (dedupeKey r) k with hk | hk
    · subst hk
      rw [if_pos rfl]
      unfold valueAt
      rw [lookupRec_append_single, hse]
      simp [mergeOpt, hse]
    · rw [if_neg hk]
      unfold valueAt
      rw [lookupRec_append_single]
      rcases h2 : lookupRec acc k with _ | kv2
      · simp [if_neg hk]
      · simp
  · simp only [hse]
    have hv : valueAt acc (dedupeKey r) = some kv.2 := by
      unfold valueAt
      rw [hse]
      rfl
    rcases eq_or_ne (dedupeKey r) k with hk | hk
    · subst hk
      rw [if_pos rfl, hv]
      by_cases hcmp : kv.2.user_ratings_total < r.user_ratings_total
      · rw [if_pos hcmp]
        unfold valueAt
        rw [lookupRec_upsert_self]
        simp [mergeOpt, hcmp]
      · rw [if_neg hcmp, hv]
        simp [mergeOpt, hcmp]
    · rw [if_neg hk]
      by_cases hcmp : kv.2.user_ratings_total < r.user_ratings_total
      · rw [if_pos hcmp]
        unfold valueAt
        rw [lookupRec_upsert_ne _ _ _ _ hk.symm]
      · rw [if_neg hcmp]

theorem valueAt_foldl_byPlace (rows : List Rec) :
    ∀ (acc : List (String × Rec)) (k : String),
      valueAt (rows.foldl byPlaceStep acc) k =
        (rows.filter (fun r => dedupeKey r == k)).foldl mergeOpt (valueAt acc k) := by
  induction rows with
  | nil =>
    intro acc k
    rfl
  | cons r rest ih =>
    intro acc k
    rw [List.foldl_cons, ih (byPlaceStep acc r) k]
    rcases eq_or_ne (dedupeKey r) k with h | h
    · rw [List.filter_cons_of_pos (by simpa using h), List.foldl_cons,
        valueAt_byPlaceStep, if_pos h]
    · rw [List.filter_cons_of_neg (by simpa using h), valueAt_byPlaceStep, if_neg h]

theorem foldl_mergeOpt_some (l : List Rec) :
    ∀ v : Rec, ∃ w, l.foldl mergeOpt (some v) = some w := by
  induction l with
  | nil =>
    intro v
    exact ⟨v, rfl⟩
  | cons r t ih =>
    intro v
    rw [List.foldl_cons]
    simp only [mergeOpt]
    by_cases h : v.user_ratings_total < r.user_ratings_total
    · rw [if_pos h]
      exact ih r
    · rw [if_neg h]
      exact ih v

theorem foldl_mergeOpt_none_eq_none (l : List Rec) (h : l.foldl mergeOpt none = none) :
    l = [] := by
  cases l with
  | nil => rfl
  | cons r t =>
    rw [List.foldl_cons, show mergeOpt none r = some r from rfl] at h
    rcases foldl_mergeOpt_some t r with ⟨w, hw⟩
    rw [hw] at h
    cases h

theorem foldl_mergeOpt_spec (l : List Rec) :
    ∀ v : Rec, l.foldl mergeOpt none = some v →
      v ∈ l ∧ (∀ s ∈ l, s.user_ratings_total ≤ v.user_ratings_total) ∧
      ∃ l1 l2, l = l1 ++ v :: l2 ∧ ∀ s ∈ l1, s.user_ratings_total < v.user_ratings_total := by
  induction l using List.reverseRecOn with
  | nil =>
    intro v h
    cases h
  | append_singleton t x ih =>
    intro v h
    rw [List.foldl_append, List.foldl_cons, List.foldl_nil] at h
    rcases ht : t.foldl mergeOpt none with _ | w
    · have hte : t = [] := foldl_mergeOpt_none_eq_none t ht
      subst hte
      rw [show ([] : List Rec).foldl mergeOpt none = none from rfl,
        show mergeOpt none x = some x from rfl] at h
      rcases Option.some.inj h with rfl
      exact ⟨by simp, by simp, [], [], by simp, by simp⟩
    · rw [ht] at h
      simp only [mergeOpt] at h
      obtain ⟨hmem, hmax, l1, l2, hsplit, hstrict⟩ := ih w ht
      by_cases hcmp : w.user_ratings_total < x.user_ratings_total
      · rw [if_pos hcmp] at h
        rcases Option.some.inj h with rfl
        refine ⟨by simp, ?_, t, [], by simp, ?_⟩
        · intro s hs
          rcases List.mem_append.mp hs with h1 | h1
          · exact le_of_lt (lt_of_le_of_lt (hmax s h1) hcmp)
          · have : s = x := by simpa using h1
            rw [this]
        · intro s hs
          exact lt_of_le_of_lt (hmax s hs) hcmp
      · rw [if_neg hcmp] at h
        rcases Option.some.inj h with rfl
        refine ⟨List.mem_append.mpr (Or.inl hmem), ?_, l1, l2 ++ [x], ?_, hstrict⟩
        · intro s hs
          rcases List.mem_append.mp hs with h1 | h1
          · exact hmax s h1
          · have : s = x := by simpa using h1
            rw [this]
            exact le_of_not_lt hcmp
        · rw [hsplit]
          simp

theorem upsertRec_map_fst :
    ∀ (l : List (String × Rec)) (k : String) (v : Rec) (kv : String × Rec),
      lookupRec l k = some kv → (upsertRec l k v).map Prod.fst = l.map Prod.fst := by
  intro l
  induction l with
  | nil =>
    intro k v kv h
    rw [lookupRec_nil] at h
    cases h
  | cons a t ih =>
    intro k v kv h
    rw [lookupRec_cons] at h
    rw [upsertRec_cons]
    rcases eq_or_ne a.1 k with h2 | h2
    · rw [if_pos h2]
      simp [h2]
    · rw [if_neg h2] at h ⊢
      simp [ih k v kv h]

theorem byPlace_fold_keys (rows : List Rec) :
    ∀ acc : List (String × Rec),
      ((acc.map Prod.fst).Nodup ∧ ∀ kv ∈ acc, kv.1 = dedupeKey kv.2) →
      (((rows.foldl byPlaceStep acc).map Prod.fst).Nodup ∧
        ∀ kv ∈ rows.foldl byPlaceStep acc, kv.1 = dedupeKey kv.2) := by
  induction rows with
  | nil =>
    intro acc h
    exact h
  | cons r rest ih =>
    intro acc h
    rw [List.foldl_cons]
    refine ih (byPlaceStep acc r) ?_
    simp only [byPlaceStep]
    rcases hse : lookupRec acc (dedupeKey r) with _ | kv <;> simp only [hse]
    · constructor
      · rw [List.map_append]
        refine List.Nodup.append h.1 (List.nodup_singleton _) ?_
        intro x hx hy
        have hxk : x = dedupeKey r := by simpa using hy
        subst hxk
        rcases List.mem_map.mp hx with ⟨kv2, hkv2, hfst⟩
        have hnone : ∀ (a : String) (b : Rec), (a, b) ∈ acc → ¬ a = dedupeKey r := by
          simpa [lookupRec, List.find?_eq_none] using hse
        exact hnone kv2.1 kv2.2 hkv2 hfst
      · intro kv hkv
        rcases List.mem_append.mp hkv with h1 | h1
        · exact h.2 kv h1
        · have : kv = (dedupeKey r, r) := by simpa using h1
          rw [this]
    · by_cases hcmp : kv.2.user_ratings_total < r.user_ratings_total
      · rw [if_pos hcmp]
        constructor
        · rw [upsertRec_map_fst acc (dedupeKey r) r kv hse]
          exact h.1
        · intro kv2 hkv2
          rcases upsertRec_mem _ _ _ _ hkv2 with h1 | h1
          · exact h.2 kv2 h1
          · rw [h1]
      · rw [if_neg hcmp]
        exact h

theorem lookupRec_of_mem_nodup :
    ∀ (l : List (String × Rec)) (kv : String × Rec),
      (l.map Prod.fst).Nodup → kv ∈ l → lookupRec l kv.1 = some kv := by
  intro l
  induction l with
  | nil =>
    intro kv _ h
    cases h
  | cons a t ih =>
    intro kv hnd hmem
    rw [List.map_cons] at hnd
    rw [lookupRec_cons]
    rcases List.mem_cons.mp hmem with h1 | h1
    · subst h1
      rw [if_pos rfl]
    · have hne : a.1 ≠ kv.1 := by
        intro hh
        have hmm : kv.1 ∈ t.map Prod.fst := List.mem_map.mpr ⟨kv, h1, rfl⟩
        rw [← hh] at hmm
        exact (List.nodup_cons.mp hnd).1 hmm
      rw [if_neg hne]
      exact ih kv (List.nodup_cons.mp hnd).2 h1

theorem dedupe_mem_spec (rows : List Rec) (r : Rec) (h : r ∈ dedupeByPlace rows) :
    r ∈ rows ∧
    (∀ s ∈ rows, dedupeKey s = dedupeKey r → s.user_ratings_total ≤ r.user_ratings_total) ∧
    ∃ l1 l2, rows.filter (fun s => dedupeKey s == dedupeKey r) = l1 ++ r :: l2 ∧
      ∀ s ∈ l1, s.user_ratings_total < r.user_ratings_total := by
  unfold dedupeByPlace at h
  rcases List.mem_map.mp h with ⟨kv, hkv, hkv2⟩
  have hinv := byPlace_fold_keys rows []
    ⟨List.nodup_nil, fun kv h => absurd h (List.not_mem_nil kv)⟩
  have hkey : kv.1 = dedupeKey kv.2 := hinv.2 kv hkv
  have hlk := lookupRec_of_mem_nodup _ kv hinv.1 hkv
  have hval : valueAt (rows.foldl byPlaceStep []) kv.1 = some kv.2 := by
    unfold valueAt
    rw [hlk]
    rfl
  rw [valueAt_foldl_byPlace rows [] kv.1] at hval
  obtain ⟨hmem, hmax, l1, l2, hsplit, hstrict⟩ := foldl_mergeOpt_spec _ kv.2 hval
  subst hkv2
  rw [hkey] at hmem hmax hsplit
  refine ⟨(List.mem_filter.mp hmem).1, ?_, l1, l2, hsplit, hstrict⟩
  intro s hs hkeq
  exact hmax s (List.mem_filter.mpr ⟨hs, by simp [hkeq]⟩)

theorem uniq_fold_keys (rows : List FRec) :
    ∀ acc : List (String × FRec),
      ((acc.map Prod.fst).Nodup ∧ ∀ kv ∈ acc, kv.1 = kv.2.place_id) →
      (((rows.foldl uniqStep acc).map Prod.fst).Nodup ∧
        ∀ kv ∈ rows.foldl uniqStep acc, kv.1 = kv.2.place_id) := by
  induction rows with
  | nil =>
    intro acc h
    exact h
  | cons r rest ih =>
    intro acc h
    rw [List.foldl_cons]
    refine ih (uniqStep acc r) ?_
    unfold uniqStep
    by_cases hc : r.place_id ≠ "" ∧ (acc.find? (fun kv => kv.1 == r.place_id)) = none
    · rw [if_pos hc]
      constructor
      · rw [List.map_append]
        refine List.Nodup.append h.1 (List.nodup_singleton _) ?_
        intro x hx hy
        have hxk : x = r.place_id := by simpa using hy
        subst hxk
        rcases List.mem_map.mp hx with ⟨kv2, hkv2, hfst⟩
        have hnone : ∀ (a : String) (b : FRec), (a, b) ∈ acc → ¬ a = r.place_id := by
          simpa [List.find?_eq_none] using hc.2
        exact hnone kv2.1 kv2.2 hkv2 hfst
      · intro kv hkv
        rcases List.mem_append.mp hkv with h1 | h1
        · exact h.2 kv h1
        · have : kv = (r.place_id, r) := by simpa using h1
          rw [this]
    · rw [if_neg hc]
      exact h

/-! ### Concrete records for C1/C6 -/

/-- The spec's scenario: candidate "스시 타로", 50 reviews, provenance URL a. -/
def sushiA : Rec :=
  { resolved_name := "스시 타로", formatted_address := "도쿄 시부야 2-2", place_id := "ChIJ123abc",
    rating := mkRat 9 2, user_ratings_total := 50, types := "restaurant", label_kor := "식당",
    lat := some 35, lng := some 139, resolved_country_code := "JP",
    business_status := "OPERATIONAL", rest := [("source_url", "https://blog.example/a")] }

/-- The spec's scenario: candidate "스시타로", same place id, 80 reviews,
provenance URL b. -/
def sushiB : Rec :=
  { resolved_name := "스시타로", formatted_address := "도쿄 시부야 2-2", place_id := "ChIJ123abc",
    rating := mkRat 22 5, user_ratings_total := 80, types := "restaurant", label_kor := "식당",
    lat := some 35, lng := some 139, resolved_country_code := "JP",
    business_status := "OPERATIONAL", rest := [("source_url", "https://blog.example/b")] }

/-- **C1** (counterexample).  Two colliding records (same place id, 50 vs 80
reviews, different source-URL entries): the dedupe keeps the 80-review
record as-is — the kept record does not carry the discarded record's
source URL, so provenance is *not* unioned (the loop replaces the whole
dict, `by_place[key] = r`, and records carry no merged source-URL set). -/
theorem C1_counterexample :
    dedupeByPlace [sushiA, sushiB] = [sushiB] ∧
    ("source_url", "https://blog.example/a") ∉ sushiB.rest := by
  decide

/-- **C1** (amended).  On collision the record with the strictly higher
review count is kept, ties keep the earlier-seen record (the kept record is
the earliest maximum among the records sharing its identity key), and the
kept record is one of the input records unchanged — no provenance union is
performed. -/
theorem C1_dedupe_keeps_earliest_max (rows : List Rec) (r : Rec)
    (h : r ∈ dedupeByPlace rows) :
    r ∈ rows ∧
    (∀ s ∈ rows, dedupeKey s = dedupeKey r → s.user_ratings_total ≤ r.user_ratings_total) ∧
    ∃ l1 l2, rows.filter (fun s => dedupeKey s == dedupeKey r) = l1 ++ r :: l2 ∧
      ∀ s ∈ l1, s.user_ratings_total < r.user_ratings_total :=
  dedupe_mem_spec rows r h

/-- Witness for the amended C1 at the spec scenario (the 80-review record
is kept and dominates its 50-review duplicate). -/
theorem C1_dedupe_keeps_earliest_max_witness :
    sushiB ∈ dedupeByPlace [sushiA, sushiB] ∧
    (sushiB ∈ [sushiA, sushiB] ∧
      (∀ s ∈ [sushiA, sushiB], dedupeKey s = dedupeKey sushiB →
        s.user_ratings_total ≤ sushiB.user_ratings_total) ∧
      ∃ l1 l2,
        [sushiA, sushiB].filter (fun s => dedupeKey s == dedupeKey sushiB) = l1 ++ sushiB :: l2 ∧
        ∀ s ∈ l1, s.user_ratings_total < sushiB.user_ratings_total) :=
  ⟨by decide, C1_dedupe_keeps_earliest_max [sushiA, sushiB] sushiB (by decide)⟩

/-! ### C6: identity-key uniqueness -/

/-- Fast-variant run data: a raw hit whose `place_id` is absent (`""`). -/
def envF : FastEnv :=
  { area := "", area_filter := "none", include_types := "", min_rating := 0, min_reviews := 0,
    max_results := 100, pages := 1 }

def rawNoPid : RawPlace :=
  { name := "무명식당", place_id := "", formatted_address := "어딘가 1-2", vicinity := none,
    types := ["restaurant"], rating := some (mkRat 9 2), user_ratings_total := some 30,
    business_status := "OPERATIONAL", lat := some 1, lng := some 2 }

/-- The record the fast `text_search` builds from `rawNoPid`. -/
def noPidRec : FRec :=
  { name := "무명식당", formatted_address := "어딘가 1-2", place_id := "",
    rating := mkRat 9 2, user_ratings_total := 30, types := "restaurant",
    lat := some 1, lng := some 2,
    google_maps_url := "https://www.google.com/maps/place/?q=place_id:" }

/-- **C6** (counterexample).  In the fast variant a collected record whose
place identifier is absent is dropped by the `uniq` dedupe (`if pid and pid
not in uniq`), not keyed under `name@address` and retained as the claim
states: the record survives collection but the final deduplicated list is
empty. -/
theorem C6_counterexample :
    fast_text_search { envF with max_results := capOf envF.max_results }
        [{ results := [rawNoPid], next_page_token := none }] = [noPidRec] ∧
    fastMainText envF [{ results := [rawNoPid], next_page_token := none }] = [] := by
  decide

/-- **C6** (amended).  Identity keys are unique in both variants' final
deduplicated sets (full variant: `place_id`, falling back to
`name@address`; fast variant: `place_id`), and in the full variant every
collected record — identifier or not — is still represented: some output
record carries its identity key.  Only the fast variant drops
identifier-less records. -/
theorem C6_unique_identity_keys (rows : List Rec) (frows : List FRec) (m : ℤ) :
    ((dedupeByPlace rows).map dedupeKey).Nodup ∧
    (∀ s ∈ rows, ∃ r ∈ dedupeByPlace rows, dedupeKey r = dedupeKey s) ∧
    ((fastFinalize frows m).map (fun r => r.place_id)).Nodup := by
  have hinv := byPlace_fold_keys rows []
    ⟨List.nodup_nil, fun kv h => absurd h (List.not_mem_nil kv)⟩
  refine ⟨?_, ?_, ?_⟩
  · have hmap : (dedupeByPlace rows).map dedupeKey
        = (rows.foldl byPlaceStep []).map Prod.fst := by
      unfold dedupeByPlace
      rw [List.map_map]
      exact List.map_congr_left (fun kv hkv => (hinv.2 kv hkv).symm)
    rw [hmap]
    exact hinv.1
  · intro s hs
    have hval := valueAt_foldl_byPlace rows [] (dedupeKey s)
    rcases hfold : (rows.filter (fun r => dedupeKey r == dedupeKey s)).foldl mergeOpt none
        with _ | w
    · exfalso
      have hnil : rows.filter (fun r => dedupeKey r == dedupeKey s) = [] :=
        foldl_mergeOpt_none_eq_none _ hfold
      have : s ∈ ([] : List Rec) := hnil ▸ List.mem_filter.mpr ⟨hs, by simp⟩
      cases this
    · have hv2 : valueAt (rows.foldl byPlaceStep []) (dedupeKey s) = some w := by
        rw [hval]
        exact hfold
      unfold valueAt at hv2
      rcases hlk : lookupRec (rows.foldl byPlaceStep []) (dedupeKey s) with _ | kv
      · rw [hlk] at hv2
        cases hv2
      · have hlk' : (rows.foldl byPlaceStep []).find?
            (fun kv0 => kv0.1 == dedupeKey s) = some kv := hlk
        have hkmem : kv ∈ rows.foldl byPlaceStep [] := List.mem_of_find?_eq_some hlk'
        refine ⟨kv.2, ?_, ?_⟩
        · unfold dedupeByPlace
          exact List.mem_map.mpr ⟨kv, hkmem, rfl⟩
        · have h1 : kv.1 = dedupeKey kv.2 := hinv.2 kv hkmem
          have h2 := List.find?_some hlk'
          rw [← h1]
          exact beq_iff_eq.mp h2
  · have hinvF := uniq_fold_keys frows []
      ⟨List.nodup_nil, fun kv h => absurd h (List.not_mem_nil kv)⟩
    have hmap : (fastFinalize frows m).map (fun r => r.place_id)
        = ((frows.foldl uniqStep []).map Prod.fst).take (capOf m).toNat := by
      unfold fastFinalize uniqDedupe
      rw [List.map_take, List.map_map]
      congr 1
      exact List.map_congr_left (fun kv hkv => (hinvF.2 kv hkv).symm)
    rw [hmap]
    exact hinvF.1.sublist (List.take_sublist _ _)

/-- Witness for the amended C6: the 50-review duplicate's key is still
represented in the deduplicated output. -/
theorem C6_unique_identity_keys_witness :
    sushiA ∈ [sushiA, sushiB] ∧
    ∃ r ∈ dedupeByPlace [sushiA, sushiB], dedupeKey r = dedupeKey sushiA :=
  ⟨by decide, (C6_unique_identity_keys [sushiA, sushiB] [] 0).2.1 sushiA (by decide)⟩

/-! ### C8: GeoJSON/CSV export -/

theorem write_csv_eq (rows : List Rec) : write_csv rows = rows := by
  have key : ∀ (l acc : List Rec), l.foldl (fun acc r => acc ++ [r]) acc = acc ++ l := by
    intro l
    induction l with
    | nil =>
      intro acc
      simp
    | cons r t ih =>
      intro acc
      rw [List.foldl_cons, ih]
      simp
  unfold write_csv
  rw [key]
  rfl

theorem write_geojson_length (rows : List Rec) :
    (write_geojson rows).length =
      (rows.filter (fun r => r.lat.isSome && r.lng.isSome)).length := by
  induction rows with
  | nil => rfl
  | cons r t ih =>
    unfold write_geojson at ih ⊢
    rcases hla : r.lat with _ | la <;> rcases hln : r.lng with _ | ln <;>
      simp [List.filterMap_cons, List.filter_cons, hla, hln, ih]

/-- **C8** (confirmed).  `write_geojson` emits exactly one Point Feature per
record having both coordinates (same count, and the feature built from each
such record is present); every emitted Feature's coordinate pair is exactly
its source record's `lng`/`lat` and its properties are the whole record;
a record missing either coordinate backs no Feature; and `write_csv` still
writes every record as a row. -/
theorem C8_geojson_export (rows : List Rec) :
    (write_geojson rows).length =
      (rows.filter (fun r => r.lat.isSome && r.lng.isSome)).length ∧
    (∀ r ∈ rows, ∀ la ln : ℚ, r.lat = some la → r.lng = some ln →
      ({ lng := ln, lat := la, properties := r } : Feature) ∈ write_geojson rows) ∧
    (∀ f ∈ write_geojson rows,
      f.properties ∈ rows ∧ f.properties.lat = some f.lat ∧ f.properties.lng = some f.lng) ∧
    (∀ r ∈ rows, (r.lat = none ∨ r.lng = none) →
      ∀ f ∈ write_geojson rows, f.properties ≠ r) ∧
    write_csv rows = rows := by
  have h3 : ∀ f ∈ write_geojson rows,
      f.properties ∈ rows ∧ f.properties.lat = some f.lat ∧ f.properties.lng = some f.lng := by
    intro f hf
    unfold write_geojson at hf
    rcases List.mem_filterMap.mp hf with ⟨r, hr, hg⟩
    rcases hla : r.lat with _ | la <;> rcases hln : r.lng with _ | ln <;>
      rw [hla, hln] at hg
    · cases hg
    · cases hg
    · cases hg
    · rcases Option.some.inj hg with rfl
      exact ⟨hr, hla, hln⟩
  refine ⟨write_geojson_length rows, ?_, h3, ?_, write_csv_eq rows⟩
  · intro r hr la ln hla hln
    unfold write_geojson
    refine List.mem_filterMap.mpr ⟨r, hr, ?_⟩
    rw [hla, hln]
  · intro r hr hnone f hf hEq
    rcases h3 f hf with ⟨_, hfl, hfn⟩
    rw [hEq] at hfl hfn
    rcases hnone with h | h
    · rw [h] at hfl
      cases hfl
    · rw [h] at hfn
      cases hfn

/-- Witness for C8: the feature built from `recPass` appears in the export
of `[recPass]`. -/
theorem C8_geojson_export_witness :
    (recPass ∈ [recPass] ∧ recPass.lat = some (35 : ℚ) ∧ recPass.lng = some (139 : ℚ)) ∧
    ({ lng := (139 : ℚ), lat := (35 : ℚ), properties := recPass } : Feature) ∈
      write_geojson [recPass] :=
  ⟨⟨by decide, by decide, by decide⟩,
    (C8_geojson_export [recPass]).2.1 recPass (by decide) 35 139 (by decide) (by decide)⟩

end CrawlerWeb
